import Mathlib

/-!
# Verification of the plenum RBFT node core

Shallow embedding of the request-lifecycle core of the plenum repository:
`plenum/server/propagator.py`, `plenum/server/node.py` and
`plenum/common/transaction_store.py`.  Python dictionaries are modelled as
association lists (insertion-ordered, like Python dicts), Python sets as
`Finset`, raised exceptions as `Option`/`Except`, and `hashlib.sha256` by an
executable SHA-256 over byte lists.  Coroutines that the source creates but
never awaits (`asyncio.sleep` in `processOrdered`, `asyncio.Queue.put` in
`TransactionStore.append`) are modelled by their actual effect: none.  Components of the repository that are
imported by `node.py` but whose source is not part of the package under
study (`plenum.common.types`, `plenum.server.models.InstanceChanges`,
`plenum.server.monitor.Monitor`, `plenum.server.instances.Instances`, the
`ledger` package) are modelled from the specification; each such definition
carries a doc comment saying so.
-/

namespace Plenum

/-! ## Association lists: the model of Python `dict` -/

/-- Lookup in an association list, the model of Python `d[k]` /`k in d`. -/
def alistGet? {K V : Type} [DecidableEq K] : List (K × V) → K → Option V
  | [], _ => none
  | (k', v) :: rest, k => if k' = k then some v else alistGet? rest k

/-- Update/insert in an association list, the model of Python `d[k] = v`
(existing key keeps its position, new key appended, as CPython does). -/
def alistSet {K V : Type} [DecidableEq K] : List (K × V) → K → V → List (K × V)
  | [], k, v => [(k, v)]
  | (k', v') :: rest, k, v =>
      if k' = k then (k, v) :: rest else (k', v') :: alistSet rest k v

/-! ## Bytes and SHA-256 (model of Python `hashlib.sha256(...).hexdigest()`) -/

/-- UTF-8 encoding of one character (model of CPython `str.encode('utf-8')`,
one character at a time). -/
def utf8Char (c : Char) : List Nat :=
  let n := c.toNat
  if n < 0x80 then [n]
  else if n < 0x800 then
    [0xC0 ||| (n >>> 6), 0x80 ||| (n &&& 0x3F)]
  else if n < 0x10000 then
    [0xE0 ||| (n >>> 12), 0x80 ||| ((n >>> 6) &&& 0x3F), 0x80 ||| (n &&& 0x3F)]
  else
    [0xF0 ||| (n >>> 18), 0x80 ||| ((n >>> 12) &&& 0x3F),
     0x80 ||| ((n >>> 6) &&& 0x3F), 0x80 ||| (n &&& 0x3F)]

/-- UTF-8 encoding of a string as a list of byte values. -/
def utf8 (s : String) : List Nat :=
  s.data.foldr (fun c acc => utf8Char c ++ acc) []

/-- 32-bit truncation. -/
def m32 (n : Nat) : Nat := n &&& 0xFFFFFFFF

/-- 32-bit right rotation. -/
def rotr32 (n k : Nat) : Nat := m32 ((n >>> k) ||| (n <<< (32 - k)))

/-- The first 64 primes, from which FIPS 180-4 derives the SHA-256
constants. -/
def sha256Primes : List Nat :=
  [2, 3, 5, 7, 11, 13, 17, 19, 23, 29, 31, 37, 41, 43, 47, 53,
   59, 61, 67, 71, 73, 79, 83, 89, 97, 101, 103, 107, 109, 113, 127, 131,
   137, 139, 149, 151, 157, 163, 167, 173, 179, 181, 191, 193, 197, 199,
   211, 223, 227, 229, 233, 239, 241, 251, 257, 263, 269, 271, 277, 281,
   283, 293, 307, 311]

/-- Integer cube root by fuel-driven binary search: the invariant is
`lo ^ 3 ≤ n < hi ^ 3`. -/
def cbrtGo (n : Nat) : Nat → Nat → Nat → Nat
  | 0, lo, _ => lo
  | fuel + 1, lo, hi =>
      if hi ≤ lo + 1 then lo
      else
        let mid := (lo + hi) / 2
        if mid * mid * mid ≤ n then cbrtGo n fuel mid hi
        else cbrtGo n fuel lo mid

/-- Integer cube root: the largest `x` with `x ^ 3 ≤ n`. -/
def cbrt (n : Nat) : Nat := cbrtGo n 200 0 (n + 1)

/-- SHA-256 round constants: the first 32 bits of the fractional parts of
the cube roots of the first 64 primes. -/
def sha256K : List Nat :=
  sha256Primes.map (fun p => cbrt (p <<< 96) % (1 <<< 32))

/-- SHA-256 initial hash state: the first 32 bits of the fractional parts
of the square roots of the first 8 primes. -/
def sha256Init : List Nat :=
  (sha256Primes.take 8).map (fun p => Nat.sqrt (p <<< 64) % (1 <<< 32))

/-- SHA-256 message padding: append `0x80`, zero bytes to 56 mod 64, then the
bit length as 8 big-endian bytes. -/
def sha256Pad (msg : List Nat) : List Nat :=
  let L := msg.length
  let padLen := (55 + 64 - L % 64) % 64 + 1
  let bitLen := L * 8
  msg ++ (0x80 :: List.replicate (padLen - 1) 0) ++
    (List.range 8).map (fun i => (bitLen >>> ((7 - i) * 8)) &&& 0xFF)

/-- Split a byte list into 32-bit big-endian words. -/
def bytesToWords : List Nat → List Nat
  | b0 :: b1 :: b2 :: b3 :: rest =>
      (((b0 <<< 8 ||| b1) <<< 8 ||| b2) <<< 8 ||| b3) :: bytesToWords rest
  | _ => []

/-- Extend the 16-word block to the 64-word message schedule.  The
accumulator is kept in reverse order so the recently produced words are at
the head. -/
def sha256Extend : Nat → List Nat → List Nat
  | 0, acc => acc
  | n + 1, acc =>
      let w2 := acc.getD 1 0
      let w7 := acc.getD 6 0
      let w15 := acc.getD 14 0
      let w16 := acc.getD 15 0
      let s0 := (rotr32 w15 7) ^^^ (rotr32 w15 18) ^^^ (w15 >>> 3)
      let s1 := (rotr32 w2 17) ^^^ (rotr32 w2 19) ^^^ (w2 >>> 10)
      sha256Extend n (m32 (w16 + s0 + w7 + s1) :: acc)

/-- The 64-word message schedule of one block. -/
def sha256Schedule (block : List Nat) : List Nat :=
  (sha256Extend 48 block.reverse).reverse

/-- One round of the SHA-256 compression function.  The state is the list
`[a, b, c, d, e, f, g, h]`. -/
def sha256Round (st : List Nat) (kw : Nat) : List Nat :=
  match st with
  | [a, b, c, d, e, f, g, h] =>
      let S1 := (rotr32 e 6) ^^^ (rotr32 e 11) ^^^ (rotr32 e 25)
      let ch := (e &&& f) ^^^ ((0xFFFFFFFF ^^^ e) &&& g)
      let t1 := m32 (h + S1 + ch + kw)
      let S0 := (rotr32 a 2) ^^^ (rotr32 a 13) ^^^ (rotr32 a 22)
      let maj := (a &&& b) ^^^ (a &&& c) ^^^ (b &&& c)
      let t2 := m32 (S0 + maj)
      [m32 (t1 + t2), a, b, c, m32 (d + t1), e, f, g]
  | other => other

/-- Compress one 16-word block into the running hash. -/
def sha256Compress (hs : List Nat) (block : List Nat) : List Nat :=
  let ws := sha256Schedule block
  let fin := (ws.zip sha256K).foldl (fun st p => sha256Round st (m32 (p.1 + p.2))) hs
  (hs.zip fin).map (fun p => m32 (p.1 + p.2))

/-- Fold the compression function over the 16-word chunks of the message.
The fuel is the word count, which bounds the number of chunks, so the
recursion is structural and kernel-reducible; the 0-fuel arm is
unreachable when the fuel is the length of the word list. -/
def sha256BlocksGo : Nat → List Nat → List Nat → List Nat
  | _, hs, [] => hs
  | 0, hs, _ => hs
  | fuel + 1, hs, w :: rest =>
      sha256BlocksGo fuel (sha256Compress hs ((w :: rest).take 16))
        (rest.drop 15)

/-- Fold the compression function over the 16-word chunks of the message. -/
def sha256Blocks (hs : List Nat) (ws : List Nat) : List Nat :=
  sha256BlocksGo ws.length hs ws

/-- SHA-256 of a byte list, as the eight 32-bit words of the digest. -/
def sha256Words (msg : List Nat) : List Nat :=
  sha256Blocks sha256Init (bytesToWords (sha256Pad msg))

/-- One lowercase hex digit. -/
def hexDigit (n : Nat) : Char :=
  if n < 10 then Char.ofNat (48 + n) else Char.ofNat (87 + (n % 16))

/-- A 32-bit word as 8 lowercase hex digits. -/
def wordToHex (w : Nat) : List Char :=
  (List.range 8).map (fun i => hexDigit ((w >>> ((7 - i) * 4)) &&& 0xF))

/-- SHA-256 hex digest of a byte list: the model of Python
`sha256(b).hexdigest()`. -/
def sha256Hex (msg : List Nat) : String :=
  ⟨(sha256Words msg).foldr (fun w acc => wordToHex w ++ acc) []⟩

/-! ## Message and value types -/

/-- Modelled from the spec: field-name constants of `plenum.common.txn`
(that module is not under src/).  §3 and the concrete scenario
`operation={type:"T"}` fix the operation's type key as `type`. -/
def TXN_TYPE : String := "type"

/-- Modelled from the spec: the `txnId` result key (§4.1 generateReply). -/
def TXN_ID : String := "txnId"

/-- Modelled from the spec: the `txnTime` result key (§4.1 generateReply). -/
def TXN_TIME : String := "txnTime"

/-- Modelled from the spec: the `identifier` result key. -/
def IDENTIFIER : String := "identifier"

/-- Modelled from the spec: the `reqId` result key. -/
def REQ_ID : String := "reqId"

/-- Modelled from the spec (`plenum.common.types` is not under src/):
a client `Request{clientId, reqId, operation}` (§3); the operation is an
opaque string-keyed map. -/
structure Request where
  identifier : String
  reqId : Nat
  operation : List (String × String)
deriving DecidableEq, Repr

/-- `req.key`: the `(identifier, reqId)` pair keying the Requests registry. -/
def Request.key (r : Request) : String × Nat := (r.identifier, r.reqId)

/-- Modelled from the spec: `req.reqDigest` (used by `Propagator.forward`);
§3 defines Digest as SHA-256 over the request's canonical serialization. -/
def Request.reqDigest (r : Request) : String :=
  sha256Hex (utf8 (r.identifier ++ toString r.reqId ++
    (r.operation.foldr (fun p acc => p.1 ++ p.2 ++ acc) "")))

/-- Values stored in a result map (Python dict values of a Reply result). -/
inductive TxnValue where
  | str (s : String)
  | num (n : Nat)
  | arr (l : List String)
  | null
deriving DecidableEq, Repr

/-- Modelled from the spec (`plenum.common.types` is not under src/):
`Reply{result}` (§3); the `reply.reqId` projection used by
`TransactionStore.addToProcessedTxns` is the result's request id, carried
as a plain field of the tagged tuple. -/
structure Reply where
  reqId : Nat
  result : List (String × TxnValue)
deriving DecidableEq, Repr

/-- Modelled from the spec (`plenum.common.types` is not under src/):
`Ordered{instId, viewNo, identifier, reqId, digest, ppTime}` (§3). -/
structure Ordered where
  instId : Nat
  viewNo : Nat
  identifier : String
  reqId : Nat
  digest : String
  ppTime : Nat
deriving DecidableEq, Repr

/-- Modelled from the spec (`plenum.common.types` is not under src/):
`InstanceChange{viewNo}` (§3). -/
structure InstanceChangeMsg where
  viewNo : Nat
deriving DecidableEq, Repr

/-! ## `plenum/server/propagator.py`: `ReqState` and `Requests` -/

/-- `ReqState`: per-request state (the request, forwarded flag, set of
PROPAGATE senders; the Python `set` is a `Finset`). -/
structure ReqState where
  request : Request
  forwarded : Bool
  propagates : Finset String
deriving DecidableEq

/-- `ReqState.__init__`. -/
def ReqState.init (r : Request) : ReqState := ⟨r, false, ∅⟩

/-- `Requests`: a dict from `(identifier, reqId)` to `ReqState`. -/
structure Requests where
  entries : List ((String × Nat) × ReqState)
deriving DecidableEq

/-- The empty registry. -/
def Requests.empty : Requests := ⟨[]⟩

/-- Python `key in self` / `self[key]` on the registry. -/
def Requests.find? (rs : Requests) (k : String × Nat) : Option ReqState :=
  alistGet? rs.entries k

/-- `self[key] = st`. -/
def Requests.setState (rs : Requests) (k : String × Nat) (st : ReqState) :
    Requests :=
  ⟨alistSet rs.entries k st⟩

/-- `Requests.add`: insert a fresh `ReqState` if the key is new, and return
the state stored at the key (the Python method returns `self[key]`). -/
def Requests.add (rs : Requests) (req : Request) : Requests × ReqState :=
  match rs.find? req.key with
  | some st => (rs, st)
  | none =>
      let st := ReqState.init req
      (rs.setState req.key st, st)

/-- `Requests.forwarded`: whether the request was forwarded (raises
`KeyError`, i.e. `none`, when the key is absent). -/
def Requests.isForwarded (rs : Requests) (req : Request) : Option Bool :=
  (rs.find? req.key).map (·.forwarded)

/-- `Requests.flagAsForwarded` (raises `KeyError`, i.e. `none`, when the
key is absent). -/
def Requests.flagAsForwarded (rs : Requests) (req : Request) :
    Option Requests :=
  (rs.find? req.key).map fun st =>
    rs.setState req.key { st with forwarded := true }

/-- `Requests.addPropagate`: `add` then insert the sender into the
propagates set of the stored state. -/
def Requests.addPropagate (rs : Requests) (req : Request) (sender : String) :
    Requests :=
  let (rs', st) := rs.add req
  rs'.setState req.key { st with propagates := insert sender st.propagates }

/-- `Requests.votes`: the number of propagates recorded for the request
(`len` of the set; a `KeyError` is caught and gives 0). -/
def Requests.votes (rs : Requests) (req : Request) : Nat :=
  match rs.find? (req.identifier, req.reqId) with
  | some st => st.propagates.card
  | none => 0

/-- `Requests.canForward`: `votes == requiredVotes and not
self[req.key].forwarded`.  Python `and` short-circuits, so the `KeyError`
(`none`) from `self[req.key]` can only surface when the vote count already
equals `requiredVotes`. -/
def Requests.canForward (rs : Requests) (req : Request)
    (requiredVotes : Nat) : Option Bool :=
  if rs.votes req = requiredVotes then
    (rs.find? req.key).map (fun st => !st.forwarded)
  else
    some false

/-- `Requests.hasPropagated`: `req.key in self and sender in
self[req.key].propagates`. -/
def Requests.hasPropagated (rs : Requests) (req : Request) (sender : String) :
    Bool :=
  match rs.find? req.key with
  | some st => sender ∈ st.propagates
  | none => false

/-! ## `plenum/common/transaction_store.py`: `TransactionStore` -/

/-- `TransactionStore`: processed requests per client
(`identifier → reqId → txnId`), per-client response queues, and the
`txnId → Reply` transaction map. -/
structure TransactionStore where
  processedRequests : List (String × List (Nat × String))
  responses : List (String × List Reply)
  transactions : List (String × Reply)
deriving DecidableEq

/-- `TransactionStore.reset` / fresh store. -/
def TransactionStore.empty : TransactionStore := ⟨[], [], []⟩

/-- `TransactionStore.addToProcessedTxns`. -/
def TransactionStore.addToProcessedTxns (ts : TransactionStore)
    (identifier : String) (txnId : String) (reply : Reply) :
    TransactionStore :=
  let ts1 := { ts with transactions := alistSet ts.transactions txnId reply }
  let m := (alistGet? ts1.processedRequests identifier).getD []
  { ts1 with processedRequests :=
      alistSet ts1.processedRequests identifier (alistSet m reply.reqId txnId) }

/-- `TransactionStore._isNewTxn`: the client or request id is not yet in
`processedRequests`, and `txnId` is not `None`. -/
def TransactionStore.isNewTxn (ts : TransactionStore) (identifier : String)
    (reply : Reply) (txnId : Option String) : Bool :=
  (match alistGet? ts.processedRequests identifier with
   | none => true
   | some m => (alistGet? m reply.reqId).isNone) && txnId.isSome

/-- `TransactionStore.append`: record in `processedRequests`/`transactions`
only when `_isNewTxn`, then create the client's response queue if it is
missing.  The final `self.responses[identifier].put(reply)` builds a
coroutine that is never awaited (the same slip as `processOrdered`'s
sleep), so it enqueues nothing: the queue object is created empty and
stays empty. -/
def TransactionStore.append (ts : TransactionStore) (identifier : String)
    (reply : Reply) (txnId : Option String) : TransactionStore :=
  let ts1 :=
    match txnId, ts.isNewTxn identifier reply txnId with
    | some t, true => ts.addToProcessedTxns identifier t reply
    | _, _ => ts
  if (alistGet? ts1.responses identifier).isNone then
    { ts1 with responses := alistSet ts1.responses identifier [] }
  else
    ts1

/-- `TransactionStore.get`: look up the txnId recorded for
`(identifier, reqId)` and return the transaction stored under it.
`.error` models the `KeyError` raised by `self.transactions[txnId]` when
the binding dangles; a present client with an unseen `reqId` falls through
to Python's implicit `None`. -/
def TransactionStore.get (ts : TransactionStore) (identifier : String)
    (reqId : Nat) : Except String (Option Reply) :=
  match alistGet? ts.processedRequests identifier with
  | some m =>
      match alistGet? m reqId with
      | some txnId =>
          match alistGet? ts.transactions txnId with
          | some reply => .ok (some reply)
          | none => .error "KeyError"
      | none => .ok none
  | none => .ok none

/-! ## Spec-modelled collaborators of `node.py` -/

/-- Modelled from the spec (`plenum.server.monitor` is not under src/):
the Monitor keeps latency/throughput stats and exposes the
`isMasterDegraded()` predicate (§4.4).  `masterDegraded` is that
predicate's current value; `orderedEvents`/`unorderedEvents` record the
`requestOrdered`/`requestUnOrdered` notifications; `reset` clears the
recorded stats. -/
structure Monitor where
  masterDegraded : Bool
  orderedEvents : List (String × Nat × Nat × Bool)
  unorderedEvents : List (String × Nat)
deriving DecidableEq

/-- `monitor.requestOrdered(identifier, reqId, instId, byMaster)`. -/
def Monitor.requestOrdered (m : Monitor) (identifier : String) (reqId : Nat)
    (instId : Nat) (byMaster : Bool) : Monitor :=
  { m with orderedEvents :=
      m.orderedEvents ++ [(identifier, reqId, instId, byMaster)] }

/-- `monitor.requestUnOrdered(identifier, reqId)`. -/
def Monitor.requestUnOrdered (m : Monitor) (identifier : String)
    (reqId : Nat) : Monitor :=
  { m with unorderedEvents := m.unorderedEvents ++ [(identifier, reqId)] }

/-- `monitor.reset()`: clear the recorded stats. -/
def Monitor.reset (m : Monitor) : Monitor :=
  { m with orderedEvents := [], unorderedEvents := [] }

/-- Modelled from the spec (`plenum.server.models.InstanceChanges` is not
under src/): a map `viewNo → set of voter NodeNames` (§3). -/
structure InstanceChanges where
  votes : List (Nat × Finset String)
deriving DecidableEq

/-- The recorded voters for a view (empty set when the view is unknown). -/
def InstanceChanges.voters (ic : InstanceChanges) (v : Nat) : Finset String :=
  (alistGet? ic.votes v).getD ∅

/-- Modelled from the spec: `hasView(v)` — some vote for `v` has been
recorded. -/
def InstanceChanges.hasView (ic : InstanceChanges) (v : Nat) : Bool :=
  (alistGet? ic.votes v).isSome

/-- Modelled from the spec: `addVote(v, voter)`. -/
def InstanceChanges.addVote (ic : InstanceChanges) (v : Nat)
    (voter : String) : InstanceChanges :=
  ⟨alistSet ic.votes v (insert voter (ic.voters v))⟩

/-- Modelled from the spec: `hasInstChngFrom(v, frm)`. -/
def InstanceChanges.hasInstChngFrom (ic : InstanceChanges) (v : Nat)
    (frm : String) : Bool :=
  frm ∈ ic.voters v

/-- Modelled from the spec: `hasQuorum(v, f)` — at least `2f+1` distinct
voters for `v` (§4.4, glossary: Quorum = 2f+1). -/
def InstanceChanges.hasQuorum (ic : InstanceChanges) (v : Nat) (f : Nat) :
    Bool :=
  2 * f + 1 ≤ (ic.voters v).card

/-! ### Ledger (modelled from the spec)

The `ledger` package is not under src/.  Per §4.5 the ledger is an
append-only record list whose `append` returns a Merkle inclusion proof
(audit path plus root); leaves are hashed with domain separator `0x00`,
internal nodes with `0x01`. -/

/-- A ledger record: the result map of a reply. -/
abbrev LedgerRecord := List (String × TxnValue)

/-- Modelled from the spec: serialization of a record value
("line-delimited serialized records", concrete serializer delegated). -/
def serializeValue : TxnValue → String
  | .str s => s
  | .num n => toString n
  | .arr l => String.intercalate "," l
  | .null => "None"

/-- Modelled from the spec: deterministic serialization of a record. -/
def serializeRecord (r : LedgerRecord) : String :=
  r.foldr (fun p acc => p.1 ++ ":" ++ serializeValue p.2 ++ ";" ++ acc) ""

/-- Merkle leaf hash: `H(0x00 || bytes)` (§4.5). -/
def leafHash (bytes : List Nat) : String :=
  sha256Hex (0x00 :: bytes)

/-- Merkle internal node hash: `H(0x01 || left || right)` (§4.5). -/
def nodeHashPair (a b : String) : String :=
  sha256Hex (0x01 :: (utf8 a ++ utf8 b))

/-- One level of Merkle tree construction: hash adjacent pairs, promoting
an odd leftover. -/
def levelUp : List String → List String
  | a :: b :: rest => nodeHashPair a b :: levelUp rest
  | l => l

/-- Merkle root of a list of leaf hashes (fuel-driven level iteration; the
number of leaves bounds the number of levels). -/
def merkleRootAux : Nat → List String → String
  | _, [] => sha256Hex []
  | _, [h] => h
  | 0, h :: _ => h
  | fuel + 1, l => merkleRootAux fuel (levelUp l)

/-- Merkle root of a list of leaf hashes. -/
def merkleRoot (leaves : List String) : String :=
  merkleRootAux leaves.length leaves

/-- Audit path for the leaf at index `i`: the sibling hash at each level,
bottom up (a promoted odd node contributes no sibling). -/
def auditPathAux : Nat → Nat → List String → List String
  | 0, _, _ => []
  | _, _, [] => []
  | _, _, [_] => []
  | fuel + 1, i, l =>
      let rest := auditPathAux fuel (i / 2) (levelUp l)
      match (if i % 2 = 0 then l.get? (i + 1) else l.get? (i - 1)) with
      | some sib => sib :: rest
      | none => rest

/-- Audit path for the leaf at index `i` of the given leaf hashes. -/
def auditPathOf (leaves : List String) (i : Nat) : List String :=
  auditPathAux leaves.length i leaves

/-- Modelled from the spec: ledger `append` — append the record and return
the Merkle proof for it: the new sequence number, the new root and the
audit path of the appended leaf (§4.5, §6 Reply result keys `seqNo`,
`auditPath`, `rootHash`). -/
def ledgerAppend (records : List LedgerRecord) (record : LedgerRecord) :
    (List (String × TxnValue)) × List LedgerRecord :=
  let records' := records ++ [record]
  let leaves := records'.map (fun r => leafHash (utf8 (serializeRecord r)))
  let proof :=
    [("seqNo", TxnValue.num records'.length),
     ("rootHash", TxnValue.str (merkleRoot leaves)),
     ("auditPath", TxnValue.arr (auditPathOf leaves (records'.length - 1)))]
  (proof, records')

/-- Python `dict.update`: apply every key/value of `u` to `d` in order. -/
def dictUpdate {K V : Type} [DecidableEq K] (d u : List (K × V)) :
    List (K × V) :=
  u.foldl (fun acc p => alistSet acc p.1 p.2) d

/-! ## Node state and actions -/

/-- Modelled from the spec (`plenum.server.suspicion_codes` is not under
src/): the suspicion code raised for a duplicate instance-change vote. -/
inductive Suspicion where
  | duplicateInstChng
deriving DecidableEq

/-- Externally visible effects of the node handlers (sent messages,
logged discards, the created-but-not-awaited sleep of `processOrdered`). -/
inductive NodeAction where
  | transmitToClient (reply : Reply) (remote : Option String)
  | requestAck (reqId : Nat) (remote : String)
  | sendPropagate (request : Request) (clientName : String)
  | forwardToReplicas (digest : String)
  | sleepNotAwaited (seconds : Nat)
  | discard (reason : String)
  | reportSuspiciousNode (nodeName : String) (code : Suspicion)
  | sendInstanceChangeMsg (viewNo : Nat)
  | electorViewChanged (viewNo : Nat)
deriving DecidableEq

/-- The node state touched by the embedded handlers.  `masterId` models
`self.instances.masterId` (`plenum.server.instances` is not under src/;
§3: instance 0 is master, `None` before instances exist).  The ledger and
the transaction store together model `primaryStorage`/`secondaryStorage`:
per §4.1/§4.6 the storage append writes the ledger and makes the reply
visible to `getReply`. -/
structure NodeState where
  name : String
  f : Nat
  viewNo : Nat
  requests : Requests
  instanceChanges : InstanceChanges
  monitor : Monitor
  masterId : Option Nat
  clientIdentifiers : List (String × String)
  msgsToReplicas : List (List String)
  ledgerRecords : List LedgerRecord
  txnStore : TransactionStore
deriving DecidableEq

/-- `instId == self.instances.masterId` (Python `==` against `None` is
`False`). -/
def NodeState.byMaster (st : NodeState) (instId : Nat) : Bool :=
  match st.masterId with
  | some m => instId == m
  | none => false

/-! ## `plenum/server/node.py` handlers -/

namespace Node

/-- The transaction id of node.py 1112–1113:
`sha256("{}{}".format(req.identifier, req.reqId)).hexdigest()`. -/
def txnIdOf (req : Request) : String :=
  sha256Hex (utf8 (req.identifier ++ toString req.reqId))

/-- The result map of node.py 1114–1118: `{identifier, reqId, txnId,
txnTime = ppTime, txnType = req.operation.get(TXN_TYPE)}`. -/
def genResult (ppTime : Nat) (req : Request) : LedgerRecord :=
  [(IDENTIFIER, .str req.identifier),
   (REQ_ID, .num req.reqId),
   (TXN_ID, .str (txnIdOf req)),
   (TXN_TIME, .num ppTime),
   (TXN_TYPE, match alistGet? req.operation TXN_TYPE with
              | some t => .str t
              | none => .null)]

/-- `Node.generateReply` (node.py 1100–1123): compute
`txnId = sha256("{}{}".format(identifier, reqId)).hexdigest()`, build the
result map, append to the primary storage obtaining the Merkle proof, and
merge the proof into the result.  The Python function constructs
`Reply(result)` before `result.update(merkleProof)`, so the persisted
reply aliases the merged dict; the model persists the merged result. -/
def generateReply (st : NodeState) (ppTime : Nat) (req : Request) :
    Reply × NodeState :=
  let txnId := txnIdOf req
  let result := genResult ppTime req
  let (merkleProof, ledger') := ledgerAppend st.ledgerRecords result
  let merged := dictUpdate result merkleProof
  let reply : Reply := ⟨req.reqId, merged⟩
  let store' := st.txnStore.append req.identifier reply (some txnId)
  (reply, { st with ledgerRecords := ledger', txnStore := store' })

/-- `Node.doCustomAction`: generate the reply and transmit it to the
client recorded for the request's identifier (a `none` remote models the
`KeyError` from `self.clientIdentifiers[req.identifier]`). -/
def doCustomAction (st : NodeState) (ppTime : Nat) (req : Request) :
    NodeState × List NodeAction :=
  let (reply, st') := generateReply st ppTime req
  (st', [.transmitToClient reply (alistGet? st'.clientIdentifiers req.identifier)])

/-- `Node.executeRequest`: dispatch through `requestExecuter`, a
`defaultdict` whose default is `doCustomAction`; node.py registers no
other executor, so every operation type dispatches to `doCustomAction`. -/
def executeRequest (st : NodeState) (ppTime : Nat) (req : Request) :
    NodeState × List NodeAction :=
  doCustomAction st ppTime req

/-- `Node.processOrdered` (node.py 902–943): notify the monitor, then —
only for the master instance — look the request up and execute it, or
retry up to 3 times.  `rand n` is the value `random.randint(2, 4)` drawn
at retry `n`; the source builds `asyncio.sleep(...)` without awaiting it,
which is recorded as the `sleepNotAwaited` action.  Returns the Python
return value (`True` on the master branch, `None` otherwise).  The fuel
is the remaining retry budget `3 - retryNo`, so the recursion is
structural and kernel-reducible; the 0-fuel arm is unreachable. -/
def processOrderedGo (o : Ordered) (rand : Nat → Nat) :
    Nat → Nat → NodeState → NodeState × List NodeAction × Option Bool
  | fuel, retryNo, st =>
      let byMaster := st.byMaster o.instId
      let st1 := { st with monitor :=
          st.monitor.requestOrdered o.identifier o.reqId o.instId byMaster }
      if byMaster then
        match st1.requests.find? (o.identifier, o.reqId) with
        | some rstate =>
            let (st2, acts) := executeRequest st1 o.ppTime rstate.request
            (st2, acts, some true)
        | none =>
            if retryNo < 3 then
              match fuel with
              | fuel' + 1 =>
                  let (st2, acts, _) :=
                    processOrderedGo o rand fuel' (retryNo + 1) st1
                  (st2, .sleepNotAwaited (rand retryNo) :: acts, some true)
              | 0 => (st1, [], some true)
            else
              (st1, [], some true)
      else
        (st1, [], none)

/-- `Node.processOrdered`, entered at the given `retryNo` (the handler is
invoked with `retryNo = 0`). -/
def processOrdered (st : NodeState) (o : Ordered) (rand : Nat → Nat)
    (retryNo : Nat) : NodeState × List NodeAction × Option Bool :=
  processOrderedGo o rand (3 - retryNo) retryNo st

/-- `Propagator.propagate` (propagator.py 103–117): if this node has not
yet propagated the request, record itself as a propagator and broadcast a
PROPAGATE. -/
def propagate (st : NodeState) (request : Request) (clientName : String) :
    NodeState × List NodeAction :=
  if st.requests.hasPropagated request st.name then
    (st, [])
  else
    ({ st with requests := st.requests.addPropagate request st.name },
     [.sendPropagate request clientName])

/-- `Propagator.forward` (propagator.py 150–161): enqueue the request
digest on every replica queue, notify the monitor, flag as forwarded
(`none` models the `KeyError` when the key is absent). -/
def forward (st : NodeState) (request : Request) :
    Option (NodeState × List NodeAction) :=
  let st1 := { st with
    msgsToReplicas := st.msgsToReplicas.map (· ++ [request.reqDigest]),
    monitor := st.monitor.requestUnOrdered request.identifier request.reqId }
  (st1.requests.flagAsForwarded request).map fun rs =>
    ({ st1 with requests := rs }, [.forwardToReplicas request.reqDigest])

/-- `Propagator.tryForwarding`: forward exactly when
`Propagator.canForward`, i.e. `requests.canForward(request, f + 1)`,
holds. -/
def tryForwarding (st : NodeState) (request : Request) :
    Option (NodeState × List NodeAction) :=
  match st.requests.canForward request (st.f + 1) with
  | none => none
  | some true => forward st request
  | some false => some (st, [])

/-- `Propagator.recordAndPropagate`: `requests.add`, `propagate`, then
`tryForwarding`. -/
def recordAndPropagate (st : NodeState) (request : Request)
    (clientName : String) : Option (NodeState × List NodeAction) :=
  let st1 := { st with requests := (st.requests.add request).1 }
  let (st2, a1) := propagate st1 request clientName
  (tryForwarding st2 request).map fun p => (p.1, a1 ++ p.2)

/-- `Node.getReplyFor`: query the secondary storage for a prior reply.
Modelled from the spec: `plenum.persistence.secondary_storage` is not
under src/; per §4.6 it answers `getReply` from the per-client reply store
populated by the storage append, which is src's `TransactionStore.get`. -/
def getReplyFor (st : NodeState) (request : Request) :
    Except String (Option Reply) :=
  st.txnStore.get request.identifier request.reqId

/-- `Node.processRequest` (node.py 843–873): remember the client for the
identifier, then either retransmit a previously computed reply, or — for
a fresh request — ack it and `recordAndPropagate`
(`checkRequestAuthorized` is a no-op `pass` in the base `Node`). -/
def processRequest (st : NodeState) (request : Request) (frm : String) :
    Except String (NodeState × List NodeAction) :=
  let st1 :=
    if (alistGet? st.clientIdentifiers request.identifier).isNone then
      { st with clientIdentifiers :=
          alistSet st.clientIdentifiers request.identifier frm }
    else st
  match getReplyFor st1 request with
  | .error e => .error e
  | .ok (some reply) => .ok (st1, [.transmitToClient reply (some frm)])
  | .ok none =>
      match recordAndPropagate st1 request frm with
      | some (st2, acts) => .ok (st2, .requestAck request.reqId frm :: acts)
      | none => .error "KeyError"

/-- `Node.sendInstanceChange`: broadcast an InstanceChange and record the
node's own vote. -/
def sendInstanceChange (st : NodeState) (viewNo : Nat) :
    NodeState × List NodeAction :=
  ({ st with instanceChanges := st.instanceChanges.addVote viewNo st.name },
   [.sendInstanceChangeMsg viewNo])

/-- `Node.canViewChange` (node.py 1052–1058): quorum for the proposed view
and `self.viewNo <= proposedViewNo`. -/
def canViewChange (st : NodeState) (proposedViewNo : Nat) : Bool :=
  st.instanceChanges.hasQuorum proposedViewNo st.f &&
    decide (st.viewNo ≤ proposedViewNo)

/-- `Node.startViewChange` (node.py 1060–1073): set
`viewNo = proposedViewNo + 1`, reset the monitor, notify the elector. -/
def startViewChange (st : NodeState) (proposedViewNo : Nat) :
    NodeState × List NodeAction :=
  let st1 := { st with viewNo := proposedViewNo + 1,
                       monitor := st.monitor.reset }
  (st1, [.electorViewChanged st1.viewNo])

/-- `Node.processInstanceChange` (node.py 954–992). -/
def processInstanceChange (st : NodeState) (instChg : InstanceChangeMsg)
    (frm : String) : NodeState × List NodeAction :=
  if instChg.viewNo < st.viewNo then
    (st, [.discard "view no less than own view no"])
  else
    if st.instanceChanges.hasView instChg.viewNo then
      if st.instanceChanges.hasInstChngFrom instChg.viewNo frm then
        (st, [.reportSuspiciousNode frm .duplicateInstChng])
      else
        let st1 := { st with instanceChanges :=
            st.instanceChanges.addVote instChg.viewNo frm }
        if canViewChange st1 instChg.viewNo then
          startViewChange st1 instChg.viewNo
        else
          (st1, [])
    else
      if st.monitor.masterDegraded then
        let st1 := { st with instanceChanges :=
            st.instanceChanges.addVote instChg.viewNo frm }
        sendInstanceChange st1 instChg.viewNo
      else
        (st, [.discard "did not find the master to be slow"])

end Node

/-! ## Concrete inputs used by the witnesses (scenario 1 of the spec:
N = 4, f = 1, client "Alice", reqId 1). -/

/-- A fresh node state: f = 1, master instance 0, empty stores. -/
def baseState : NodeState where
  name := "Alpha"
  f := 1
  viewNo := 0
  requests := Requests.empty
  instanceChanges := ⟨[]⟩
  monitor := ⟨false, [], []⟩
  masterId := some 0
  clientIdentifiers := []
  msgsToReplicas := [[], []]
  ledgerRecords := []
  txnStore := TransactionStore.empty

/-- Alice's request. -/
def aliceReq : Request := ⟨"Alice", 1, [(TXN_TYPE, "T")]⟩

/-- A master-instance Ordered for Alice's request. -/
def aliceOrdered : Ordered := ⟨0, 0, "Alice", 1, "digest1", 5⟩

/-- An Ordered for Alice's request from backup instance 1. -/
def backupOrdered : Ordered := ⟨1, 0, "Alice", 1, "digest1", 5⟩

/-- A deterministic stand-in for `random.randint(2, 4)`. -/
def wrand : Nat → Nat := fun _ => 2

/-- A node state whose registry holds Alice's forwarded request and whose
client map knows Alice's remote. -/
def c3State : NodeState :=
  { baseState with
    requests := ⟨[(("Alice", 1), ⟨aliceReq, true, {"Alpha", "Beta"}⟩)]⟩,
    clientIdentifiers := [("Alice", "cliA")] }

/-- A node state whose transaction store already holds a reply for
(Alice, 1). -/
def c5State : NodeState :=
  { baseState with
    txnStore := ⟨[("Alice", [(1, "t1")])], [], [("t1", ⟨1, [("r", .num 9)]⟩)]⟩ }

/-! ## Helper lemmas -/

theorem alistGet?_set_self {K V : Type} [DecidableEq K]
    (l : List (K × V)) (k : K) (v : V) :
    alistGet? (alistSet l k v) k = some v := by
  induction l with
  | nil => simp [alistSet, alistGet?]
  | cons hd tl ih =>
      obtain ⟨k', v'⟩ := hd
      by_cases h : k' = k
      · simp [alistSet, alistGet?, h]
      · simp [alistSet, alistGet?, h, ih]

theorem alistGet?_set_ne {K V : Type} [DecidableEq K]
    (l : List (K × V)) (k k₀ : K) (v : V) (h : k ≠ k₀) :
    alistGet? (alistSet l k v) k₀ = alistGet? l k₀ := by
  induction l with
  | nil => simp [alistSet, alistGet?, h]
  | cons hd tl ih =>
      obtain ⟨k', v'⟩ := hd
      by_cases hk : k' = k
      · subst hk
        simp [alistSet, alistGet?, h]
      · simp [alistSet, alistGet?, hk, ih]

theorem Requests.find?_setState_self (rs : Requests) (k : String × Nat)
    (st : ReqState) : (rs.setState k st).find? k = some st :=
  alistGet?_set_self rs.entries k st

/-- After `addPropagate`, the stored state has the sender inserted into the
propagates set of the previous state (or of a fresh `ReqState`). -/
theorem Requests.find?_addPropagate_self (rs : Requests) (req : Request)
    (sender : String) :
    ∃ st₀ : ReqState,
      (rs.addPropagate req sender).find? req.key =
        some { st₀ with propagates := insert sender st₀.propagates } ∧
      (rs.find? req.key = some st₀ ∨
        (rs.find? req.key = none ∧ st₀ = ReqState.init req)) := by
  unfold Requests.addPropagate Requests.add
  cases h : rs.find? req.key with
  | some st =>
      exact ⟨st, by simp [h, Requests.find?_setState_self], Or.inl rfl⟩
  | none =>
      refine ⟨ReqState.init req, ?_, Or.inr ⟨rfl, rfl⟩⟩
      simp only [h]
      exact Requests.find?_setState_self _ _ _

/-- `votes` is the cardinality of the stored propagates set. -/
theorem Requests.votes_eq_card (rs : Requests) (req : Request)
    (st : ReqState) (h : rs.find? (req.identifier, req.reqId) = some st) :
    rs.votes req = st.propagates.card := by
  unfold Requests.votes
  rw [h]

/-- `votes` is 0 when the key is absent. -/
theorem Requests.votes_eq_zero (rs : Requests) (req : Request)
    (h : rs.find? (req.identifier, req.reqId) = none) :
    rs.votes req = 0 := by
  unfold Requests.votes
  rw [h]

/-- `addVote` inserts the voter into the view's voter set. -/
theorem InstanceChanges.voters_addVote (ic : InstanceChanges) (v : Nat)
    (w : String) : (ic.addVote v w).voters v = insert w (ic.voters v) := by
  unfold InstanceChanges.addVote InstanceChanges.voters
  simp [alistGet?_set_self]

/-- Creating a missing response queue leaves the transactions map
untouched. -/
theorem TransactionStore.transactions_mkQueue (t : TransactionStore)
    (identifier : String) :
    (if (alistGet? t.responses identifier).isNone then
        { t with responses := alistSet t.responses identifier [] }
      else t).transactions = t.transactions := by
  split <;> rfl

/-! ## The claims -/

/-- C1: for every request and requiredVotes = f+1, `Requests.canForward`
returns true iff the number of distinct recorded PROPAGATE senders for the
request is exactly f+1 and the forwarded flag is not set; below f+1 votes
and at f+2 or more votes it returns false (and, the count being nonzero,
never raises). -/
theorem claim1_canForward_iff (rs : Requests) (req : Request) (f : Nat) :
    (rs.canForward req (f + 1) = some true ↔
       rs.votes req = f + 1 ∧
       ∃ st, rs.find? req.key = some st ∧ st.forwarded = false)
    ∧ (rs.votes req ≠ f + 1 → rs.canForward req (f + 1) = some false)
    ∧ (∀ st, rs.find? (req.identifier, req.reqId) = some st →
        rs.votes req = st.propagates.card) := by
  refine ⟨?_, ?_, fun st h => Requests.votes_eq_card rs req st h⟩
  · unfold Requests.canForward
    by_cases hv : rs.votes req = f + 1
    · cases hf : rs.find? req.key with
      | some st => simp [hv, hf]
      | none =>
          have h0 : rs.votes req = 0 := Requests.votes_eq_zero rs req hf
          omega
    · simp [hv]
  · intro hv
    unfold Requests.canForward
    simp [hv]

/-- C1 witness: two distinct senders recorded, f = 1, not forwarded:
`canForward` is `some true`, and with the same registry `canForward` at
`requiredVotes = 3` (that is f = 2, votes below f+1) is `some false`. -/
theorem claim1_witness :
    (⟨[(("Alice", 1), ⟨aliceReq, false, {"Alpha", "Beta"}⟩)]⟩ :
        Requests).canForward aliceReq (1 + 1) = some true ∧
    (⟨[(("Alice", 1), ⟨aliceReq, false, {"Alpha", "Beta"}⟩)]⟩ :
        Requests).canForward aliceReq (2 + 1) = some false :=
  ⟨(claim1_canForward_iff
      (⟨[(("Alice", 1), ⟨aliceReq, false, {"Alpha", "Beta"}⟩)]⟩ : Requests)
      aliceReq 1).1.mpr
      ⟨by decide, ⟨aliceReq, false, {"Alpha", "Beta"}⟩, by decide, rfl⟩,
   (claim1_canForward_iff
      (⟨[(("Alice", 1), ⟨aliceReq, false, {"Alpha", "Beta"}⟩)]⟩ : Requests)
      aliceReq 2).2.1 (by decide)⟩

/-- C9: however many times `addPropagate` is called with the same request
and sender, the stored propagates set holds exactly one occurrence of that
sender, and `votes` is the cardinality of the set, counting each sender
once. -/
theorem claim9_addPropagate_idempotent (rs : Requests) (req : Request)
    (sender : String) (n : Nat) (h : 0 < n) :
    ∃ st, ((fun r => Requests.addPropagate r req sender)^[n] rs).find?
        req.key = some st ∧
      (st.propagates.filter (fun x => x = sender)).card = 1 ∧
      ((fun r => Requests.addPropagate r req sender)^[n] rs).votes req =
        st.propagates.card := by
  have key : ∀ m, ∃ st,
      ((fun r => Requests.addPropagate r req sender)^[m + 1] rs).find?
        req.key = some st ∧ sender ∈ st.propagates := by
    intro m
    induction m with
    | zero =>
        simp only [zero_add, Function.iterate_one]
        obtain ⟨st₀, hfind, _⟩ := Requests.find?_addPropagate_self rs req sender
        exact ⟨_, hfind, Finset.mem_insert_self _ _⟩
    | succ m ih =>
        rw [Function.iterate_succ_apply']
        obtain ⟨st₀, hfind, _⟩ := Requests.find?_addPropagate_self
          ((fun r => Requests.addPropagate r req sender)^[m + 1] rs) req sender
        exact ⟨_, hfind, Finset.mem_insert_self _ _⟩
  obtain ⟨m, rfl⟩ : ∃ m, n = m + 1 := ⟨n - 1, by omega⟩
  obtain ⟨st, hfind, hmem⟩ := key m
  refine ⟨st, hfind, ?_, Requests.votes_eq_card _ req st hfind⟩
  have hfilter : st.propagates.filter (fun x => x = sender) = {sender} := by
    ext a
    simp only [Finset.mem_filter, Finset.mem_singleton]
    exact ⟨fun ⟨_, ha⟩ => ha, fun ha => ⟨ha ▸ hmem, ha⟩⟩
  rw [hfilter]
  exact Finset.card_singleton _

/-- C9 witness: three `addPropagate` calls with the same sender leave one
occurrence of it and a vote count equal to the set's size. -/
theorem claim9_witness :
    0 < 3 ∧
    ∃ st, ((fun r => Requests.addPropagate r aliceReq "Beta")^[3]
        Requests.empty).find? aliceReq.key = some st ∧
      (st.propagates.filter (fun x => x = "Beta")).card = 1 ∧
      ((fun r => Requests.addPropagate r aliceReq "Beta")^[3]
        Requests.empty).votes aliceReq = st.propagates.card :=
  ⟨by decide,
   claim9_addPropagate_idempotent Requests.empty aliceReq "Beta" 3 (by decide)⟩

/-- C2: `canViewChange` holds exactly when the recorded InstanceChange
votes for the proposed view reach the 2f+1 quorum and the node's viewNo is
at most the proposed view; `startViewChange` sets viewNo to proposed+1
(strictly above the pre-change viewNo when the guard's second conjunct
holds), resets the monitor and notifies the elector. -/
theorem claim2_viewChange (st : NodeState) (v : Nat) :
    (Node.canViewChange st v = true ↔
       2 * st.f + 1 ≤ (st.instanceChanges.voters v).card ∧ st.viewNo ≤ v)
    ∧ (Node.startViewChange st v).1.viewNo = v + 1
    ∧ (st.viewNo ≤ v → st.viewNo < (Node.startViewChange st v).1.viewNo)
    ∧ (Node.startViewChange st v).1.monitor = st.monitor.reset
    ∧ (Node.startViewChange st v).2 = [.electorViewChanged (v + 1)] := by
  refine ⟨?_, rfl, fun h => by simp [Node.startViewChange]; omega, rfl, rfl⟩
  unfold Node.canViewChange InstanceChanges.hasQuorum
  simp

/-- C2 witness: with f = 1, three recorded voters for view 0 and
viewNo = 0, `canViewChange 0` holds and `startViewChange 0` moves viewNo
to 1 > 0. -/
theorem claim2_witness :
    Node.canViewChange
      { baseState with instanceChanges := ⟨[(0, {"Alpha", "Beta", "Gamma"})]⟩ }
      0 = true ∧
    (Node.startViewChange
      { baseState with instanceChanges := ⟨[(0, {"Alpha", "Beta", "Gamma"})]⟩ }
      0).1.viewNo = 0 + 1 ∧
    ({ baseState with instanceChanges := ⟨[(0, {"Alpha", "Beta", "Gamma"})]⟩ }
        : NodeState).viewNo <
      (Node.startViewChange
        { baseState with instanceChanges := ⟨[(0, {"Alpha", "Beta", "Gamma"})]⟩ }
        0).1.viewNo :=
  ⟨(claim2_viewChange
      { baseState with instanceChanges := ⟨[(0, {"Alpha", "Beta", "Gamma"})]⟩ }
      0).1.mpr ⟨by decide, by decide⟩,
   (claim2_viewChange
      { baseState with instanceChanges := ⟨[(0, {"Alpha", "Beta", "Gamma"})]⟩ }
      0).2.1,
   (claim2_viewChange
      { baseState with instanceChanges := ⟨[(0, {"Alpha", "Beta", "Gamma"})]⟩ }
      0).2.2.1 (by decide)⟩

/-- C7: an InstanceChange for a view not below the node's own, with no
prior recorded votes for that view, is recorded only when the local
monitor finds the master degraded; otherwise the message is discarded with
no vote recorded and no suspicion raised. -/
theorem claim7_instanceChange_accept (st : NodeState)
    (msg : InstanceChangeMsg) (frm : String)
    (hge : st.viewNo ≤ msg.viewNo)
    (hfresh : st.instanceChanges.hasView msg.viewNo = false) :
    (st.monitor.masterDegraded = true →
       frm ∈ (Node.processInstanceChange st msg frm).1.instanceChanges.voters
         msg.viewNo)
    ∧ (st.monitor.masterDegraded = false →
       Node.processInstanceChange st msg frm =
         (st, [.discard "did not find the master to be slow"])) := by
  have hnotlt : ¬ (msg.viewNo < st.viewNo) := by omega
  constructor
  · intro hdeg
    unfold Node.processInstanceChange Node.sendInstanceChange
    simp only [hnotlt, if_false, hfresh, hdeg, if_true, Bool.false_eq_true,
      if_pos, if_neg]
    rw [InstanceChanges.voters_addVote, InstanceChanges.voters_addVote]
    exact Finset.mem_insert.mpr (Or.inr (Finset.mem_insert_self _ _))
  · intro hdeg
    unfold Node.processInstanceChange
    simp [hnotlt, hfresh, hdeg]

/-- C7 witness: at a fresh proposed view 2 ≥ viewNo = 0, a degraded
monitor records the sender's vote, and a healthy monitor leaves the state
unchanged and only discards. -/
theorem claim7_witness :
    ("Beta" ∈ (Node.processInstanceChange
        { baseState with monitor := ⟨true, [], []⟩ } ⟨2⟩
        "Beta").1.instanceChanges.voters 2)
    ∧ Node.processInstanceChange baseState ⟨2⟩ "Beta" =
        (baseState, [.discard "did not find the master to be slow"]) :=
  ⟨(claim7_instanceChange_accept { baseState with monitor := ⟨true, [], []⟩ }
      ⟨2⟩ "Beta" (by decide) (by decide)).1 rfl,
   (claim7_instanceChange_accept baseState ⟨2⟩ "Beta" (by decide)
      (by decide)).2 rfl⟩

/-- C10 counterexample: at an already-processed (identifier, reqId) with
an existing (empty) response queue, `append` leaves the store completely
unchanged — in particular the per-client response queue does NOT grow,
because `self.responses[identifier].put(reply)` is a coroutine the source
never awaits. -/
theorem claim10_counterexample :
    (⟨[("Alice", [(1, "t1")])], [("Alice", [])], [("t1", ⟨1, []⟩)]⟩ :
        TransactionStore).append "Alice" ⟨1, [("x", .num 7)]⟩ (some "t2") =
      ⟨[("Alice", [(1, "t1")])], [("Alice", [])], [("t1", ⟨1, []⟩)]⟩ := by
  decide

/-- C10 (amended): `TransactionStore.append` never overwrites: when the
(identifier, reqId) pair is already processed, or txnId is None, the
transactions and processedRequests maps are unchanged; the per-client
response queue object is created when missing but nothing is ever
enqueued on it (the put coroutine is never awaited), so the queue's
length never changes. -/
theorem claim10_append_no_overwrite (ts : TransactionStore)
    (identifier : String) (reply : Reply) (txnId : Option String)
    (h : (∃ m, alistGet? ts.processedRequests identifier = some m ∧
            (alistGet? m reply.reqId).isSome = true) ∨ txnId = none) :
    (ts.append identifier reply txnId).transactions = ts.transactions ∧
    (ts.append identifier reply txnId).processedRequests =
      ts.processedRequests ∧
    (ts.append identifier reply txnId).responses =
      (if (alistGet? ts.responses identifier).isNone then
        alistSet ts.responses identifier [] else ts.responses) ∧
    ((alistGet? (ts.append identifier reply txnId).responses
        identifier).getD []).length =
      ((alistGet? ts.responses identifier).getD []).length := by
  have hnew : ∀ t, txnId = some t →
      ts.isNewTxn identifier reply txnId = false := by
    intro t ht
    rcases h with ⟨m, hm, hsome⟩ | hnone
    · unfold TransactionStore.isNewTxn
      rw [hm]
      simp [Option.isNone_iff_eq_none]
      intro hmm
      rw [hmm] at hsome
      simp at hsome
    · rw [hnone] at ht
      cases ht
  unfold TransactionStore.append
  cases htx : txnId with
  | none =>
      by_cases hr : (alistGet? ts.responses identifier).isNone
      · have hr' : alistGet? ts.responses identifier = none :=
          Option.isNone_iff_eq_none.mp hr
        simp [hr, hr', alistGet?_set_self]
      · simp [hr]
  | some t =>
      have hfalse := hnew t htx
      rw [htx] at hfalse
      rw [hfalse]
      by_cases hr : (alistGet? ts.responses identifier).isNone
      · have hr' : alistGet? ts.responses identifier = none :=
          Option.isNone_iff_eq_none.mp hr
        simp [hr, hr', alistGet?_set_self]
      · simp [hr]

/-- C3: a non-master Ordered only updates the monitor (state otherwise
unchanged, no actions, Python return `None`); a master Ordered whose
request is registered runs the execution pipeline (`executeRequest`, i.e.
reply generation, ledger append and transmission to the client). -/
theorem claim3_master_gates_execution (st : NodeState) (o : Ordered)
    (rand : Nat → Nat) :
    (st.byMaster o.instId = false →
       Node.processOrdered st o rand 0 =
         ({ st with monitor :=
              (st.monitor.requestOrdered o.identifier o.reqId o.instId false) },
          [], none))
    ∧ (∀ rstate, st.byMaster o.instId = true →
       st.requests.find? (o.identifier, o.reqId) = some rstate →
       Node.processOrdered st o rand 0 =
         (let st1 := { st with monitor :=
            (st.monitor.requestOrdered o.identifier o.reqId o.instId true) }
          let p := Node.executeRequest st1 o.ppTime rstate.request
          (p.1, p.2, some true)))
    ∧ (∀ rstate, st.byMaster o.instId = true →
       st.requests.find? (o.identifier, o.reqId) = some rstate →
       (Node.processOrdered st o rand 0).1.ledgerRecords.length =
         st.ledgerRecords.length + 1 ∧
       ∃ rep rem, (Node.processOrdered st o rand 0).2.1 =
         [.transmitToClient rep rem]) := by
  refine ⟨?_, ?_, ?_⟩
  · intro hb
    unfold Node.processOrdered Node.processOrderedGo
    simp [hb]
  · intro rstate hb hfind
    unfold Node.processOrdered Node.processOrderedGo
    simp [hb, hfind]
  · intro rstate hb hfind
    unfold Node.processOrdered Node.processOrderedGo
    simp only [hb, hfind, if_true]
    refine ⟨?_, ?_⟩
    · simp [Node.executeRequest, Node.doCustomAction, Node.generateReply,
        ledgerAppend]
    · exact ⟨_, _, rfl⟩

/-- C3 witness: a backup-instance Ordered only updates the monitor; a
master-instance Ordered for a registered request appends one ledger
record. -/
theorem claim3_witness :
    (Node.processOrdered baseState backupOrdered wrand 0 =
      ({ baseState with monitor :=
           (baseState.monitor.requestOrdered backupOrdered.identifier
             backupOrdered.reqId backupOrdered.instId false) }, [], none))
    ∧ (Node.processOrdered c3State aliceOrdered wrand 0).1.ledgerRecords.length
        = c3State.ledgerRecords.length + 1 :=
  ⟨(claim3_master_gates_execution baseState backupOrdered wrand).1 rfl,
   ((claim3_master_gates_execution c3State aliceOrdered wrand).2.2
      ⟨aliceReq, true, {"Alpha", "Beta"}⟩ rfl (by decide)).1⟩

/-- C4: a master Ordered for an unregistered request is retried 3 times
and then dropped without executing or appending — that part of the claim
holds — but the sleeps between attempts are coroutine objects that are
never awaited, so no 2–4 second backoff takes place: the whole exchange is
a single synchronous pass whose only effects are four monitor
notifications and three never-awaited sleep objects. -/
theorem claim4_retry_without_backoff :
    Node.processOrdered baseState aliceOrdered wrand 0 =
      ({ baseState with monitor :=
          ⟨false,
           [("Alice", 1, 0, true), ("Alice", 1, 0, true),
            ("Alice", 1, 0, true), ("Alice", 1, 0, true)], []⟩ },
       [.sleepNotAwaited 2, .sleepNotAwaited 2, .sleepNotAwaited 2],
       some true) := by
  decide

/-- C8: after a master Ordered for a registered request has been executed
(one record appended to the ledger, the reply persisted), the
(identifier, reqId) entry is still present in the Requests registry —
`processOrdered` never removes it, contradicting the registry's own
docstring. -/
theorem claim8_entry_not_removed :
    (Node.processOrdered c3State aliceOrdered wrand 0).1.requests =
      c3State.requests ∧
    ((Node.processOrdered c3State aliceOrdered wrand 0).1.requests.find?
      ("Alice", 1)).isSome = true ∧
    (Node.processOrdered c3State aliceOrdered wrand 0).1.ledgerRecords.length
      = 1 := by
  refine ⟨rfl, ?_, ?_⟩ <;> decide

/-- C5: when the transaction store already holds a reply for the request's
(identifier, reqId), `processRequest` transmits exactly that stored reply
and stops: no RequestAck, no propagation, no forwarding, and the Requests
registry, transaction store, ledger, monitor and instance changes are
untouched. -/
theorem claim5_idempotent_reply (st : NodeState) (request : Request)
    (frm : String) (reply : Reply)
    (h : st.txnStore.get request.identifier request.reqId = .ok (some reply)) :
    ∃ st1, Node.processRequest st request frm =
        .ok (st1, [.transmitToClient reply (some frm)]) ∧
      st1.requests = st.requests ∧
      st1.txnStore = st.txnStore ∧
      st1.ledgerRecords = st.ledgerRecords ∧
      st1.monitor = st.monitor ∧
      st1.instanceChanges = st.instanceChanges := by
  unfold Node.processRequest Node.getReplyFor
  by_cases hc : (alistGet? st.clientIdentifiers request.identifier).isNone
  · refine ⟨{ st with clientIdentifiers := alistSet st.clientIdentifiers request.identifier frm }, ?_, rfl, rfl, rfl, rfl, rfl⟩
    simp [hc, h]
  · refine ⟨st, ?_, rfl, rfl, rfl, rfl, rfl⟩
    simp [hc, h]

/-- C5 witness: a repeated REQUEST from Alice is answered with the stored
reply alone. -/
theorem claim5_witness :
    ∃ st1, Node.processRequest c5State aliceReq "cli1" =
        .ok (st1, [.transmitToClient ⟨1, [("r", .num 9)]⟩ (some "cli1")]) ∧
      st1.requests = c5State.requests ∧
      st1.txnStore = c5State.txnStore ∧
      st1.ledgerRecords = c5State.ledgerRecords ∧
      st1.monitor = c5State.monitor ∧
      st1.instanceChanges = c5State.instanceChanges :=
  claim5_idempotent_reply c5State aliceReq "cli1" ⟨1, [("r", .num 9)]⟩ rfl

/-- C6: `generateReply` computes `txnId` as the SHA-256 hex digest of the
identifier concatenated with the request id — the same for every node
state and ppTime — builds the result map with identifier, reqId, txnId,
txnTime = ppTime and the operation's txnType, appends the result record
to the ledger merging the returned Merkle proof into the reply's result,
and persists the reply in the TransactionStore, from which a fresh
(identifier, reqId) is afterwards retrievable under its txnId. -/
theorem claim6_generateReply (st : NodeState) (ppTime : Nat) (req : Request) :
    alistGet? (Node.generateReply st ppTime req).1.result TXN_ID =
      some (.str (Node.txnIdOf req)) ∧
    (∀ st₂ pp₂, alistGet? (Node.generateReply st₂ pp₂ req).1.result TXN_ID =
      some (.str (Node.txnIdOf req))) ∧
    alistGet? (Node.generateReply st ppTime req).1.result IDENTIFIER =
      some (.str req.identifier) ∧
    alistGet? (Node.generateReply st ppTime req).1.result REQ_ID =
      some (.num req.reqId) ∧
    alistGet? (Node.generateReply st ppTime req).1.result TXN_TIME =
      some (.num ppTime) ∧
    alistGet? (Node.generateReply st ppTime req).1.result TXN_TYPE =
      some (match alistGet? req.operation TXN_TYPE with
            | some t => TxnValue.str t
            | none => TxnValue.null) ∧
    (Node.generateReply st ppTime req).2.ledgerRecords =
      st.ledgerRecords ++ [Node.genResult ppTime req] ∧
    (Node.generateReply st ppTime req).1.result =
      dictUpdate (Node.genResult ppTime req)
        (ledgerAppend st.ledgerRecords (Node.genResult ppTime req)).1 ∧
    (Node.generateReply st ppTime req).2.txnStore =
      st.txnStore.append req.identifier (Node.generateReply st ppTime req).1
        (some (Node.txnIdOf req)) ∧
    (st.txnStore.isNewTxn req.identifier (Node.generateReply st ppTime req).1
        (some (Node.txnIdOf req)) = true →
      alistGet? (Node.generateReply st ppTime req).2.txnStore.transactions
        (Node.txnIdOf req) = some (Node.generateReply st ppTime req).1) := by
  refine ⟨rfl, fun st₂ pp₂ => rfl, rfl, rfl, rfl, rfl, rfl, rfl, rfl, ?_⟩
  intro hnew
  have h2 : (Node.generateReply st ppTime req).2.txnStore =
      st.txnStore.append req.identifier (Node.generateReply st ppTime req).1
        (some (Node.txnIdOf req)) := rfl
  rw [h2]
  unfold TransactionStore.append
  rw [hnew]
  rw [TransactionStore.transactions_mkQueue]
  simp only [TransactionStore.addToProcessedTxns]
  exact alistGet?_set_self _ _ _

/-- C6 witness: on a fresh store the reply generated for Alice's request
carries `txnId = sha256("Alice1")` and is retrievable from the store under
that txnId. -/
theorem claim6_witness :
    alistGet? (Node.generateReply baseState 5 aliceReq).1.result TXN_ID =
      some (.str (Node.txnIdOf aliceReq)) ∧
    alistGet?
      (Node.generateReply baseState 5 aliceReq).2.txnStore.transactions
      (Node.txnIdOf aliceReq) = some (Node.generateReply baseState 5 aliceReq).1 :=
  ⟨(claim6_generateReply baseState 5 aliceReq).1,
   (claim6_generateReply baseState 5 aliceReq).2.2.2.2.2.2.2.2.2 (by decide)⟩

/-- C10 witness: appending a second reply for an already-processed
(identifier, reqId) leaves both maps unchanged. -/
theorem claim10_witness :
    ((⟨[("Alice", [(1, "t1")])], [], [("t1", ⟨1, []⟩)]⟩ :
        TransactionStore).append "Alice" ⟨1, [("x", .num 7)]⟩
        (some "t2")).transactions = [("t1", ⟨1, []⟩)] ∧
    ((⟨[("Alice", [(1, "t1")])], [], [("t1", ⟨1, []⟩)]⟩ :
        TransactionStore).append "Alice" ⟨1, [("x", .num 7)]⟩
        (some "t2")).processedRequests = [("Alice", [(1, "t1")])] :=
  ⟨(claim10_append_no_overwrite _ "Alice" ⟨1, [("x", .num 7)]⟩ (some "t2")
      (Or.inl ⟨[(1, "t1")], by decide, by decide⟩)).1,
   (claim10_append_no_overwrite _ "Alice" ⟨1, [("x", .num 7)]⟩ (some "t2")
      (Or.inl ⟨[(1, "t1")], by decide, by decide⟩)).2.1⟩

end Plenum
